import Mathlib

set_option linter.unusedVariables false

/-!
Verification of the pyinfra_fork package/service reconciliation core
(`src/pyinfra/operations/util/packaging.py`, `src/pyinfra/operations/util/service.py`).

Python dicts are embedded as association lists (`List (String × β)`); a dict
never holds a key twice, and the operations below mirror `d[k] = v`,
`d.get(k, default)` and `d.pop(k, None)` on such lists.  Generator functions
are embedded as pure functions returning the list of yielded command strings,
the list of `host.noop` observation strings, and the updated mutable state.
-/

namespace Pyinfra

/-- Membership lookup mirroring Python `d.get(k)` on a dict embedded as an
association list (first matching key wins). -/
def lookupKey {β : Type} (l : List (String × β)) (k : String) : Option β :=
  match l with
  | [] => none
  | (k2, v) :: t => if k2 = k then some v else lookupKey t k

/-- Mirror of Python `d[k] = v`: replace the value at an existing key in
place, else append the new binding. -/
def setKey {β : Type} (l : List (String × β)) (k : String) (v : β) : List (String × β) :=
  match l with
  | [] => [(k, v)]
  | (k2, v2) :: t => if k2 = k then (k, v) :: t else (k2, v2) :: setKey t k v

/-- Mirror of Python `d.pop(k, None)`: remove the binding at key `k`.  On a
dict the key appears at most once, so removing every matching entry of the
association list is the same operation. -/
def eraseKey {β : Type} (l : List (String × β)) (k : String) : List (String × β) :=
  l.filter (fun kv => kv.1 ≠ k)

/-- Snapshot of currently installed packages: package name → set of installed
version strings (`current_packages_to_versions` in the source). -/
abbrev Snapshot : Type := List (String × List String)

/-- Record `_Package` from `packaging.py`: a name plus optional version. -/
structure Package where
  name : String
  version : Option String := none
deriving DecidableEq, Repr

/-- Characters `shlex.quote` treats as safe: ASCII word characters and
`@ % + = : , . /` and the dash (Python `_find_unsafe` regex with `re.ASCII`). -/
def shlexSafeChar (c : Char) : Bool :=
  c.isAlphanum || c = '_' || c = '@' || c = '%' || c = '+' || c = '=' ||
    c = ':' || c = ',' || c = '.' || c = '/' || c = '-'

/-- Embedding of Python `shlex.quote` (character test over the underlying
character list). -/
def shlexQuote (s : String) : String :=
  if s = "" then "\x27\x27"
  else if s.data.all shlexSafeChar then s
  else "\x27" ++ (s.replace "\x27" "\x27\"\x27\"\x27") ++ "\x27"

/-- Test whether `sep` is a prefix of the character list `l`. -/
def charsStartsWith (l sep : List Char) : Bool :=
  match sep, l with
  | [], _ => true
  | _ :: _, [] => false
  | d :: ds, c :: cs => c = d && charsStartsWith cs ds

/-- Split a character list at the LAST occurrence of the nonempty separator
`sep`, returning the characters before it and the characters after it, or
`none` when `sep` does not occur. -/
def splitLastAux (sep : List Char) : List Char → Option (List Char × List Char)
  | [] => if charsStartsWith [] sep then some ([], []) else none
  | c :: cs =>
    match splitLastAux sep cs with
    | some (b, a) => some (c :: b, a)
    | none =>
      if charsStartsWith (c :: cs) sep then some ([], (c :: cs).drop sep.length)
      else none

/-- Embedding of Python `s.rsplit(sep, 1)` for a nonempty separator: split on
the last occurrence of `sep`, giving one or two fields. -/
def rsplit1 (s sep : String) : List String :=
  match splitLastAux sep.data s.data with
  | none => [s]
  | some (b, a) => [String.mk b, String.mk a]

/-- Parsing of one desired-package entry when a version join is in use
(`packaging.py` lines 63-69): rightmost split, one field means no version. -/
def parsePackage (vj : String) (s : String) : Package :=
  match rsplit1 s vj with
  | [n] => { name := n }
  | [n, v] => { name := n, version := some v }
  | _ => { name := s }

/-- Python truthiness of the `version_join` argument (`if version_join:`):
`None` and the empty string are falsy. -/
def vjTruthy (vj : Option String) : Bool :=
  match vj with
  | none => false
  | some s => s ≠ ""

/-- Normalisation of the desired list into `_Package` records
(`packaging.py` lines 61-71). -/
def parsePackages (vj : Option String) (pkgs : List String) : List Package :=
  match vj with
  | some sep =>
    if sep ≠ "" then pkgs.map (parsePackage sep)
    else pkgs.map (fun p => { name := p })
  | none => pkgs.map (fun p => { name := p })

/-- The `packages_to_ensure` argument: Python `str | list[str] | None`. -/
inductive PackagesArg where
  | nonePkgs : PackagesArg
  | strPkgs : String → PackagesArg
  | listPkgs : List String → PackagesArg
deriving DecidableEq, Repr

/-- Python truthiness of `packages_to_ensure` (`if not packages_to_ensure`). -/
def PackagesArg.isFalsy : PackagesArg → Bool
  | .nonePkgs => true
  | .strPkgs s => s = ""
  | .listPkgs l => l.isEmpty

/-- Normalisation `str → [str]` (`packaging.py` lines 61-62). -/
def PackagesArg.toList : PackagesArg → List String
  | .nonePkgs => []
  | .strPkgs s => [s]
  | .listPkgs l => l

/-- Result of a reconciliation call: yielded command strings, `host.noop`
observation strings, and the snapshot after in-place mutation. -/
structure ReconcileResult where
  commands : List String
  noops : List String
  snapshot : Snapshot
deriving DecidableEq, Repr

/-- Faithful embedding of `ensure_packages` (`packaging.py` lines 19-151) as
it stands in the repository.  The body of the `present is True` loop reads the
never-assigned variable `packages_to_check` (line 87) and the body of the
`present is False` loop calls the undefined function `_is_package_in_current`
(line 109), so whenever the parsed package list is nonempty each loop raises
`NameError` on its first iteration; the code after the loops (lines 122-151)
is unreachable then.  Raised exceptions are embedded as `Except.error`. -/
def ensure_packages (packages_to_ensure : PackagesArg)
    (current_packages_to_versions : Snapshot) (present : Bool)
    (install_command uninstall_command : String) (latest : Bool := false)
    (upgrade_command : Option String := none) (version_join : Option String := none)
    (expand_package_fact : Option (String → List String) := none) :
    Except String ReconcileResult :=
  if packages_to_ensure.isFalsy then
    .ok ⟨[], [], current_packages_to_versions⟩
  else
    let packages := parsePackages version_join packages_to_ensure.toList
    if packages.isEmpty then
      -- Loop bodies never run; the diff and upgrade sets stay empty, so
      -- lines 122-151 yield nothing and leave the snapshot unchanged.
      .ok ⟨[], [], current_packages_to_versions⟩
    else if present then
      .error "NameError: name packages_to_check is not defined"
    else
      .error "NameError: name _is_package_in_current is not defined"

/-! Service reconciliation (`service.py`). -/

/-- Map of known service statuses.  The dict is annotated `dict[str, bool]`
but the unknown-status branch stores the raw `running` argument, which may be
`None`, so values are embedded as `Option Bool`. -/
abbrev StatusMap : Type := List (String × Option Bool)

/-- Python `statuses.get(name, None)`: `none` both when the key is absent and
when a stored value is `None`. -/
def statusGet (statuses : StatusMap) (name : String) : Option Bool :=
  (lookupKey statuses name).getD none

/-- Python truthiness of an `Option Bool` argument (`if restarted:`). -/
def optTruthy (o : Option Bool) : Bool :=
  o = some true

/-- Python truthiness of an `Option String` argument (`if command:`). -/
def optStrTruthy (o : Option String) : Bool :=
  match o with
  | none => false
  | some s => s ≠ ""

/-- The combined probe-and-branch shell command built by the unknown-status
branch of `handle_service_control` (`service.py` lines 20-30). -/
def combined_service_command (status_command stop_command restart_command
    reload_command start_command : String) : String :=
  "if (" ++ status_command ++ "); then (" ++ stop_command ++ "); (" ++
    restart_command ++ "); (" ++ reload_command ++ "); else (" ++
    start_command ++ "); fi"

/-- Result of a `handle_service_control` call: yielded commands, noop
observations, and the status map after in-place mutation. -/
structure ServiceResult where
  commands : List String
  noops : List String
  statuses : StatusMap
deriving DecidableEq, Repr

/-- Embedding of `handle_service_control` (`service.py` lines 4-61).  The
`formatter.format(name, verb)` calls are embedded as an abstract function
`formatter : String → String → String`. -/
def handle_service_control (name : String) (statuses : StatusMap)
    (formatter : String → String → String) (running : Option Bool := none)
    (restarted : Option Bool := none) (reloaded : Option Bool := none)
    (command : Option String := none) (status_argument : String := "status") :
    ServiceResult :=
  let is_running := statusGet statuses name
  let base : ServiceResult :=
    match is_running with
    | none =>
      { commands := [combined_service_command
          (formatter name status_argument)
          (if running = some false then formatter name "stop" else "true")
          (if optTruthy restarted then formatter name "restart" else "true")
          (if optTruthy reloaded then formatter name "reload" else "true")
          (if running = some true then formatter name "start" else "true")]
        noops := []
        statuses := setKey statuses name running }
    | some is_run =>
      let step1 : List String × List String × StatusMap :=
        if running = some false then
          if is_run then ([formatter name "stop"], [], setKey statuses name (some false))
          else ([], ["service " ++ name ++ " is stopped"], statuses)
        else ([], [], statuses)
      let step2 : List String × List String × StatusMap :=
        if running = some true then
          if !is_run then ([formatter name "start"], [], setKey step1.2.2 name (some true))
          else ([], ["service " ++ name ++ " is running"], step1.2.2)
        else ([], [], step1.2.2)
      let restart_cmds := if optTruthy restarted && is_run then [formatter name "restart"] else []
      let reload_cmds := if optTruthy reloaded && is_run then [formatter name "reload"] else []
      { commands := step1.1 ++ step2.1 ++ restart_cmds ++ reload_cmds
        noops := step1.2.1 ++ step2.2.1
        statuses := step2.2.2 }
  match command with
  | some c =>
    if c ≠ "" then { base with commands := base.commands ++ [formatter name c] } else base
  | none => base

/-! RPM file installer and yum repository file reconciler (`packaging.py`
lines 154-263).  The external collaborators (`state.get_temp_filename`,
`files.download`, `files.file`, `files.put`, `host.get_fact`) are embedded as
abstract function parameters; each `files.*` generator is a function giving
the commands it yields. -/

/-- Characters before the first colon, or `none` when there is no colon. -/
def takeUntilColon : List Char → Option (List Char)
  | [] => none
  | c :: cs =>
    if c = ':' then some []
    else
      match takeUntilColon cs with
      | some pre => some (c :: pre)
      | none => none

/-- Characters after the first colon, or `none` when there is no colon. -/
def dropUntilColon : List Char → Option (List Char)
  | [] => none
  | c :: cs => if c = ':' then some cs else dropUntilColon cs

/-- Scheme detection of `urllib.parse.urlparse`: a scheme is recognised when
the text before the first colon is nonempty, starts with an ASCII letter, and
contains only ASCII letters, digits, `+`, `-` and `.`. -/
def urlHasScheme (s : String) : Bool :=
  match takeUntilColon s.data with
  | none => false
  | some pre =>
    !pre.isEmpty && (pre.headD ' ').isAlpha &&
      pre.all (fun c => c.isAlphanum || c = '+' || c = '-' || c = '.')

/-- The suffix starting at the first slash of a character list (empty when it
holds no slash). -/
def pathFrom : List Char → List Char
  | [] => []
  | c :: cs => if c = '/' then c :: cs else pathFrom cs

/-- Path component extraction of `urllib.parse.urlparse` for the
`scheme:` and `scheme://netloc/path` shapes used by the repo reconciler
(query and fragment splitting is not modelled; the claims never exercise
it). -/
def urlparsePath (s : String) : String :=
  if urlHasScheme s then
    match dropUntilColon s.data with
    | some ('/' :: '/' :: rest) => String.mk (pathFrom rest)
    | some other => String.mk other
    | none => ""
  else ""

/-- RPM metadata returned by the `RpmPackage` fact: the relevant `name` and
`version` fields of the info dict. -/
structure RpmInfo where
  name : String
  version : String
deriving DecidableEq, Repr

/-- The guarded install command of `ensure_rpm` (`packaging.py` line 189):
query the installed state of the literal file at execution time and install
only if absent. -/
def rpm_guarded_install (source : String) : String :=
  "rpm -q `rpm -qp " ++ source ++ "` 2> /dev/null || rpm -i " ++ source

/-- Effective source path of `ensure_rpm` after the optional download step
(`packaging.py` lines 157-166): URLs are replaced by a temp filename with an
`.rpm` extension. -/
def rpm_effective_source (get_temp_filename : String → String) (source : String) : String :=
  if urlHasScheme source then get_temp_filename source ++ ".rpm" else source

/-- Commands yielded by the download collaborator inside `ensure_rpm`
(`packaging.py` line 163); empty when the source is not a URL. -/
def rpm_download_commands (get_temp_filename : String → String)
    (download : String → String → List String) (source : String) : List String :=
  if urlHasScheme source then download source (get_temp_filename source ++ ".rpm") else []

/-- Embedding of `ensure_rpm` (`packaging.py` lines 154-202), returning the
yielded commands and the noop observations.  `get_fact` embeds
`host.get_fact(RpmPackage, name=...)`; the `create_fact`/`delete_fact` cache
updates have no effect on the output of this call and are not tracked. -/
def ensure_rpm (get_temp_filename : String → String)
    (download : String → String → List String) (get_fact : String → Option RpmInfo)
    (source : String) (present : Bool) (package_manager_command : String) :
    List String × List String :=
  let original_source := source
  let download_cmds := rpm_download_commands get_temp_filename download source
  let source := rpm_effective_source get_temp_filename source
  let info := get_fact source
  let exists_installed :=
    match info with
    | some i =>
      match get_fact i.name with
      | some current_package => current_package.version = i.version
      | none => false
    | none => false
  if present && !exists_installed then
    match info with
    | some _ => (download_cmds ++ ["rpm -i " ++ source], [])
    | none => (download_cmds ++ [rpm_guarded_install source], [])
  else if exists_installed && !present then
    match info with
    | some i => (download_cmds ++ [package_manager_command ++ " remove -y " ++ i.name], [])
    | none => (download_cmds, [])  -- unreachable: exists_installed forces info to be some
  else
    (download_cmds,
      ["rpm " ++ original_source ++ " is " ++
        (if present then "installed" else "not installed")])

/-- Embedding of `ensure_yum_repo` (`packaging.py` lines 205-263), returning
the yielded commands.  Pythonic optional-string arguments (`description`,
`gpgkey`, `type_`) are embedded as `String` with `""` for the falsy values
`None` and the empty string. -/
def ensure_yum_repo (file_absent : String → List String)
    (download : String → String → List String) (file_exists : String → Bool)
    (put : String → String → List String) (name_or_url : String) (baseurl : String)
    (present : Bool) (description : String) (enabled : Bool) (gpgcheck : Bool)
    (gpgkey : String) (repo_directory : String := "/etc/yum.repos.d/")
    (type_ : String := "") : List String :=
  let url : Option String :=
    if urlHasScheme name_or_url then some name_or_url else none
  let name_or_url :=
    match url with
    | some u =>
      -- `url_parts.path.split("/")[-1]`: the text after the last slash
      let last_segment :=
        String.mk ((urlparsePath u).data.reverse.takeWhile (fun c => c ≠ '/')).reverse
      -- strip a trailing `.repo` (`name_or_url[:-5]`)
      if (".repo").data.isSuffixOf last_segment.data then
        String.mk (last_segment.data.take (last_segment.data.length - 5))
      else last_segment
    | none => name_or_url
  let filename := repo_directory ++ name_or_url ++ ".repo"
  if !present then
    file_absent filename
  else
    match url with
    | some u => if !file_exists filename then download u filename else []
    | none =>
      let description := if description = "" then name_or_url else description
      let repo_lines :=
        ["[" ++ name_or_url ++ "]",
         "name=" ++ description,
         "baseurl=" ++ baseurl,
         "enabled=" ++ (if enabled then "1" else "0"),
         "gpgcheck=" ++ (if gpgcheck then "1" else "0")]
      let repo_lines := repo_lines ++ (if type_ ≠ "" then ["type=" ++ type_] else [])
      let repo_lines := repo_lines ++ (if gpgkey ≠ "" then ["gpgkey=" ++ gpgkey] else [])
      let repo_lines := repo_lines ++ [""]
      let repo := String.intercalate "\n" repo_lines
      put repo filename

/-! The functionally consistent package reconciler.  The `ensure_packages`
draft in the repository references a never-assigned `packages_to_check` and an
undefined `_is_package_in_current`, so the membership matcher and the loop
bodies that use it are missing from the source; the spec (sections 4.1-4.2
and 9) documents the consistent revision they came from. -/

/-- Token of a desired package in an emitted command: `name` or
`name<versionJoin>version` when a version was specified. -/
def packageToken (vj : Option String) (p : Package) : String :=
  match p.version with
  | none => p.name
  | some v => p.name ++ vj.getD "" ++ v

/-- Plain membership check of a desired package against the snapshot: name
present, and the requested version (when given) among the installed
versions. -/
def plainMatch (snap : Snapshot) (p : Package) : Bool :=
  match lookupKey snap p.name with
  | none => false
  | some versions =>
    match p.version with
    | none => true
    | some v => versions.contains v

/-- Modelled from the spec: the Membership Matcher (spec section 4.1), the
part of `ensure_packages` missing from the source (`packages_to_check` is
never assigned and `_is_package_in_current` is undefined).  Returns whether
the desired package is satisfied and the concrete identities it resolved to.
Without an expansion hook, or when expansion returns no identities, this is
the plain check against the literal desired name; with expansion, "all" mode
requires every expanded identity to be installed and "any" mode requires at
least one. -/
def matchPackage (p : Package) (snap : Snapshot)
    (expand : Option (String → List String)) (allMode : Bool) :
    Bool × List String :=
  match expand with
  | none => (plainMatch snap p, [p.name])
  | some f =>
    let ids := f p.name
    if ids.isEmpty then (plainMatch snap p, [p.name])
    else
      let sat :=
        if allMode then ids.all (fun n => (lookupKey snap n).isSome)
        else ids.any (fun n => (lookupKey snap n).isSome)
      (sat, ids)

/-- Quoted, space-joined command tokens for a package list (`packaging.py`
lines 125-132 and step 4 of the spec). -/
def joinedQuotedTokens (vj : Option String) (ps : List Package) : String :=
  String.intercalate " " (ps.map (fun p => shlexQuote (packageToken vj p)))

/-- Modelled from the spec: `reconcile` (spec section 4.2), the functionally
consistent revision of `ensure_packages` whose loop bodies are missing from
the source.  Step numbers in the comments refer to the algorithm of the spec. -/
def reconcile (desired : List String) (snap : Snapshot) (present : Bool)
    (installCmd uninstallCmd : String) (latest : Bool) (upgradeCmd : Option String)
    (versionJoin : Option String) (expand : Option (String → List String)) :
    ReconcileResult :=
  -- step 1: normalize to DesiredPackage records
  let packages := parsePackages versionJoin desired
  if present then
    -- step 2: "all" mode matching
    let checked := packages.map (fun p => (p, matchPackage p snap expand true))
    let install_set := (checked.filter (fun c => !c.2.1)).map (fun c => c.1)
    let upgrade_set :=
      (checked.filter (fun c => c.2.1 && c.1.version.isNone)).map (fun c => c.1)
    let noops :=
      if latest then []
      else (checked.filter (fun c => c.2.1)).map
        (fun c => "package " ++ c.1.name ++ " is installed")
    -- step 4: one install command, then predicted-state update
    let install_cmds :=
      if install_set.isEmpty then []
      else [installCmd ++ " " ++ joinedQuotedTokens versionJoin install_set]
    let snap1 :=
      if install_set.isEmpty then snap
      else install_set.foldl
        (fun s p => setKey s p.name [p.version.getD "unknown"]) snap
    -- step 5: one upgrade command over the bare names
    let upgrade_cmds :=
      match upgradeCmd with
      | some uc =>
        if latest && !upgrade_set.isEmpty then
          [uc ++ " " ++ String.intercalate " " (upgrade_set.map (fun p => shlexQuote p.name))]
        else []
      | none => []
    ⟨install_cmds ++ upgrade_cmds, noops, snap1⟩
  else
    -- step 3: "any" mode matching, recording every expanded identity
    let checked := packages.map (fun p => (p, matchPackage p snap expand false))
    let uninstall_set := checked.filter (fun c => c.2.1)
    let noops :=
      (checked.filter (fun c => !c.2.1)).map
        (fun c => "package " ++ c.1.name ++ " is not installed")
    if uninstall_set.isEmpty then ⟨[], noops, snap⟩
    else
      -- step 4: one uninstall command, then delete the removed packages and
      -- all their expanded identities from the snapshot
      ⟨[uninstallCmd ++ " " ++ joinedQuotedTokens versionJoin (uninstall_set.map (fun c => c.1))],
        noops,
        uninstall_set.foldl
          (fun s c => c.2.2.foldl eraseKey (eraseKey s c.1.name)) snap⟩

/-! Concrete collaborator instances used to evaluate the reconcilers on
specific inputs. -/

/-- Service command formatter in the style of the systemd callers. -/
def exampleFormatter : String → String → String :=
  fun name verb => "systemctl " ++ verb ++ " " ++ name

/-- Temp-filename generator standing in for `state.get_temp_filename`. -/
def exampleTempName : String → String :=
  fun _ => "/tmp/pyinfra-tmp"

/-- Download collaborator standing in for `files.download`. -/
def exampleDownload : String → String → List String :=
  fun url dest => ["curl -o " ++ dest ++ " " ++ url]

/-- Fact collaborator returning no RPM metadata for any query. -/
def exampleNoRpmFact : String → Option RpmInfo :=
  fun _ => none

/-- File-removal collaborator standing in for `files.file(..., present=False)`. -/
def exampleFileAbsent : String → List String :=
  fun path => ["rm -f " ++ path]

/-- File-presence fact reporting every path as missing. -/
def exampleFileMissing : String → Bool :=
  fun _ => false

/-- Upload collaborator standing in for `files.put`. -/
def examplePut : String → String → List String :=
  fun contents dest => ["put " ++ dest ++ " " ++ contents]

/-- Capability expansion resolving every name to the providers `a` and `b`. -/
def exampleExpandAB : String → List String :=
  fun _ => ["a", "b"]

theorem lookupKey_setKey_self {β : Type} (l : List (String × β)) (k : String) (v : β) :
    lookupKey (setKey l k v) k = some v := by
  induction l with
  | nil => simp [setKey, lookupKey]
  | cons kv t ih =>
    obtain ⟨k2, v2⟩ := kv
    by_cases h : k2 = k
    · simp [setKey, lookupKey, h]
    · simp [setKey, lookupKey, h, ih]

theorem lookupKey_setKey_ne {β : Type} (l : List (String × β)) (k m : String) (v : β)
    (h : m ≠ k) : lookupKey (setKey l k v) m = lookupKey l m := by
  have h' : ¬(k = m) := fun hh => h hh.symm
  induction l with
  | nil => simp [setKey, lookupKey, h']
  | cons kv t ih =>
    obtain ⟨k2, v2⟩ := kv
    by_cases h2 : k2 = k
    · subst h2
      simp [setKey, lookupKey, h']
    · simp [setKey, lookupKey, h2, ih]

theorem lookupKey_eraseKey_self {β : Type} (l : List (String × β)) (k : String) :
    lookupKey (eraseKey l k) k = none := by
  induction l with
  | nil => rfl
  | cons kv t ih =>
    obtain ⟨k2, v2⟩ := kv
    by_cases h : k2 = k
    · simpa [eraseKey, List.filter_cons, h] using ih
    · simpa [eraseKey, List.filter_cons, h, lookupKey] using ih

theorem lookupKey_eraseKey_ne {β : Type} (l : List (String × β)) (k m : String)
    (h : m ≠ k) : lookupKey (eraseKey l k) m = lookupKey l m := by
  induction l with
  | nil => rfl
  | cons kv t ih =>
    obtain ⟨k2, v2⟩ := kv
    by_cases h2 : k2 = k
    · have h3 : ¬(k = m) := fun hh => h hh.symm
      simp [eraseKey, List.filter_cons, lookupKey, h2, h3] at ih ⊢
      exact ih
    · by_cases h3 : k2 = m
      · simp [eraseKey, List.filter_cons, lookupKey, h2, h3, h]
      · simp [eraseKey, List.filter_cons, lookupKey, h2, h3] at ih ⊢
        exact ih

theorem eraseKey_idem {β : Type} (l : List (String × β)) (k : String) :
    eraseKey (eraseKey l k) k = eraseKey l k := by
  induction l with
  | nil => rfl
  | cons kv t ih =>
    by_cases h : kv.1 = k
    · simp [eraseKey, List.filter_cons, h, ih]
    · simp [eraseKey, List.filter_cons, h, ih]

theorem lookupKey_eraseKey_none {β : Type} (l : List (String × β)) (k m : String)
    (h : lookupKey l m = none) : lookupKey (eraseKey l k) m = none := by
  by_cases h2 : m = k
  · subst h2; exact lookupKey_eraseKey_self l m
  · rw [lookupKey_eraseKey_ne l k m h2]; exact h

/-- The predicted-state update of an install pass (spec step 4): each
installed package gains a snapshot entry. -/
def installUpdate (snap : Snapshot) (ps : List Package) : Snapshot :=
  ps.foldl (fun s p => setKey s p.name [p.version.getD "unknown"]) snap

/-- The predicted-state update of an uninstall pass without expansion: each
name of each removed package is deleted from the snapshot. -/
def uninstallUpdate (snap : Snapshot) (ps : List Package) : Snapshot :=
  ps.foldl (fun s p => eraseKey s p.name) snap

theorem lookupKey_installUpdate_notin (ps : List Package) (snap : Snapshot) (m : String)
    (h : ∀ p ∈ ps, p.name ≠ m) :
    lookupKey (installUpdate snap ps) m = lookupKey snap m := by
  induction ps generalizing snap with
  | nil => rfl
  | cons p t ih =>
    show lookupKey (installUpdate (setKey snap p.name [p.version.getD "unknown"]) t) m = _
    rw [ih _ (fun q hq => h q (List.mem_cons_of_mem p hq)),
      lookupKey_setKey_ne _ _ _ _ (fun hh => h p (List.mem_cons_self p t) hh.symm)]

theorem lookupKey_installUpdate_mem (ps : List Package) (snap : Snapshot) (p : Package)
    (hmem : p ∈ ps) (hnd : (ps.map Package.name).Nodup) :
    lookupKey (installUpdate snap ps) p.name = some [p.version.getD "unknown"] := by
  induction ps generalizing snap with
  | nil => cases hmem
  | cons q t ih =>
    rw [List.map_cons, List.nodup_cons] at hnd
    rcases List.mem_cons.mp hmem with h | h
    · subst h
      show lookupKey (installUpdate (setKey snap p.name [p.version.getD "unknown"]) t) p.name = _
      rw [lookupKey_installUpdate_notin t _ p.name
          (fun r hr hh => hnd.1 (hh ▸ List.mem_map_of_mem Package.name hr)),
        lookupKey_setKey_self]
    · exact ih _ h hnd.2

theorem lookupKey_uninstallUpdate_notin (ps : List Package) (snap : Snapshot) (m : String)
    (h : ∀ p ∈ ps, p.name ≠ m) :
    lookupKey (uninstallUpdate snap ps) m = lookupKey snap m := by
  induction ps generalizing snap with
  | nil => rfl
  | cons p t ih =>
    show lookupKey (uninstallUpdate (eraseKey snap p.name) t) m = _
    rw [ih _ (fun q hq => h q (List.mem_cons_of_mem p hq)),
      lookupKey_eraseKey_ne _ _ _ (fun hh => h p (List.mem_cons_self p t) hh.symm)]

theorem lookupKey_uninstallUpdate_none (ps : List Package) (snap : Snapshot) (m : String)
    (h : lookupKey snap m = none) :
    lookupKey (uninstallUpdate snap ps) m = none := by
  induction ps generalizing snap with
  | nil => exact h
  | cons p t ih =>
    exact ih _ (lookupKey_eraseKey_none _ _ _ h)

theorem lookupKey_uninstallUpdate_mem (ps : List Package) (snap : Snapshot) (p : Package)
    (hmem : p ∈ ps) :
    lookupKey (uninstallUpdate snap ps) p.name = none := by
  induction ps generalizing snap with
  | nil => cases hmem
  | cons q t ih =>
    rcases List.mem_cons.mp hmem with h | h
    · subst h
      exact lookupKey_uninstallUpdate_none t _ _ (lookupKey_eraseKey_self snap p.name)
    · exact ih _ h

theorem plainMatch_congr (s1 s2 : Snapshot) (p : Package)
    (h : lookupKey s1 p.name = lookupKey s2 p.name) :
    plainMatch s1 p = plainMatch s2 p := by
  unfold plainMatch
  rw [h]

theorem plainMatch_of_lookup_none (s : Snapshot) (p : Package)
    (h : lookupKey s p.name = none) : plainMatch s p = false := by
  unfold plainMatch
  rw [h]

theorem plainMatch_of_lookup_token (s : Snapshot) (p : Package)
    (h : lookupKey s p.name = some [p.version.getD "unknown"]) : plainMatch s p = true := by
  unfold plainMatch
  rw [h]
  cases hv : p.version with
  | none => rfl
  | some v => simp [hv]

theorem checked_filter_not (packages : List Package) (g : Package → Bool × List String) :
    (packages.map (fun p => (p, g p))).filter (fun c => !c.2.1)
      = (packages.filter (fun p => !(g p).1)).map (fun p => (p, g p)) := by
  induction packages with
  | nil => rfl
  | cons p t ih =>
    by_cases h : (g p).1 <;> simp [List.filter_cons, h, ih]

theorem checked_filter_pos (packages : List Package) (g : Package → Bool × List String) :
    (packages.map (fun p => (p, g p))).filter (fun c => c.2.1)
      = (packages.filter (fun p => (g p).1)).map (fun p => (p, g p)) := by
  induction packages with
  | nil => rfl
  | cons p t ih =>
    by_cases h : (g p).1 <;> simp [List.filter_cons, h, ih]

theorem reconcile_present_all_satisfied (desired : List String) (snap : Snapshot)
    (iC uC : String) (upC vj : Option String)
    (h : ∀ p ∈ parsePackages vj desired, plainMatch snap p = true) :
    (reconcile desired snap true iC uC false upC vj none).commands = [] := by
  have hfil : ((parsePackages vj desired).map
      (fun p => (p, matchPackage p snap none true))).filter (fun c => !c.2.1) = [] := by
    rw [List.filter_eq_nil_iff]
    intro c hc
    obtain ⟨p, hp, rfl⟩ := List.mem_map.mp hc
    simp [matchPackage, h p hp]
  cases upC <;> simp [reconcile, hfil]

theorem reconcile_present_snapshot (desired : List String) (snap : Snapshot)
    (iC uC : String) (latest : Bool) (upC vj : Option String) :
    (reconcile desired snap true iC uC latest upC vj none).snapshot
      = installUpdate snap ((parsePackages vj desired).filter (fun p => !plainMatch snap p)) := by
  have hset : (((parsePackages vj desired).map
        (fun p => (p, matchPackage p snap none true))).filter (fun c => !c.2.1)).map
        (fun c => c.1)
      = (parsePackages vj desired).filter (fun p => !plainMatch snap p) := by
    rw [checked_filter_not]
    simp only [matchPackage, List.map_map]
    have hid : ((fun c : Package × Bool × List String => c.1) ∘
        fun p : Package => (p, plainMatch snap p, [p.name])) = id := rfl
    rw [hid, List.map_id]
  by_cases hempty : ((parsePackages vj desired).filter (fun p => !plainMatch snap p)).isEmpty
  · rw [List.isEmpty_iff] at hempty
    simp [reconcile, hset, hempty, installUpdate]
  · simp [reconcile, hset, hempty, installUpdate]

theorem reconcile_absent_all_unsatisfied (desired : List String) (snap : Snapshot)
    (iC uC : String) (latest : Bool) (upC vj : Option String)
    (h : ∀ p ∈ parsePackages vj desired, plainMatch snap p = false) :
    (reconcile desired snap false iC uC latest upC vj none).commands = [] := by
  have hfil : ((parsePackages vj desired).map
      (fun p => (p, matchPackage p snap none false))).filter (fun c => c.2.1) = [] := by
    rw [List.filter_eq_nil_iff]
    intro c hc
    obtain ⟨p, hp, rfl⟩ := List.mem_map.mp hc
    simp [matchPackage, h p hp]
  simp [reconcile, hfil]

theorem reconcile_absent_snapshot (desired : List String) (snap : Snapshot)
    (iC uC : String) (latest : Bool) (upC vj : Option String) :
    (reconcile desired snap false iC uC latest upC vj none).snapshot
      = uninstallUpdate snap ((parsePackages vj desired).filter (fun p => plainMatch snap p)) := by
  have hset : ((parsePackages vj desired).map
        (fun p => (p, matchPackage p snap none false))).filter (fun c => c.2.1)
      = ((parsePackages vj desired).filter (fun p => plainMatch snap p)).map
          (fun p => (p, matchPackage p snap none false)) := by
    rw [checked_filter_pos]
    simp [matchPackage]
  have hfold : ∀ ps : List Package,
      (ps.map (fun p => (p, matchPackage p snap none false))).foldl
        (fun s c => c.2.2.foldl eraseKey (eraseKey s c.1.name)) snap
      = uninstallUpdate snap ps := by
    intro ps
    rw [List.foldl_map]
    unfold uninstallUpdate
    congr 1
    funext s p
    show List.foldl eraseKey (eraseKey s p.name) [p.name] = eraseKey s p.name
    show eraseKey (eraseKey s p.name) p.name = eraseKey s p.name
    exact eraseKey_idem s p.name
  by_cases hempty : ((parsePackages vj desired).filter (fun p => plainMatch snap p)).isEmpty
  · rw [List.isEmpty_iff] at hempty
    simp [reconcile, hset, hempty, uninstallUpdate]
  · have hne : (((parsePackages vj desired).filter (fun p => plainMatch snap p)).map
        (fun p => (p, matchPackage p snap none false))).isEmpty = false := by
      simp only [List.isEmpty_eq_false_iff_exists_mem] at hempty ⊢
      obtain ⟨p, hp⟩ := List.isEmpty_eq_false_iff_exists_mem.mp (by
        cases hh : ((parsePackages vj desired).filter (fun p => plainMatch snap p)).isEmpty
        · rfl
        · exact absurd hh hempty)
      exact ⟨_, List.mem_map_of_mem _ hp⟩
    simp only [reconcile, hset, hne]
    simp [hfold]

/-- C2 (amended): reconciliation is idempotent provided `latest` is false, no
capability-expansion hook is supplied, and the parsed desired entries carry
pairwise-distinct package names: after one run and its predicted-state update
of the snapshot, a second run with the same desired list yields zero
commands. -/
theorem ensure_packages_idempotent (desired : List String) (snap : Snapshot)
    (present : Bool) (installCmd uninstallCmd : String) (upgradeCmd vj : Option String)
    (hnd : ((parsePackages vj desired).map Package.name).Nodup) :
    (reconcile desired
        (reconcile desired snap present installCmd uninstallCmd false upgradeCmd vj
          none).snapshot
        present installCmd uninstallCmd false upgradeCmd vj none).commands = [] := by
  have hinj := List.inj_on_of_nodup_map hnd
  cases present
  · rw [reconcile_absent_snapshot]
    apply reconcile_absent_all_unsatisfied
    intro p hp
    by_cases hsat : plainMatch snap p = true
    · have hmem : p ∈ (parsePackages vj desired).filter (fun q => plainMatch snap q) :=
        List.mem_filter.mpr ⟨hp, hsat⟩
      have hlook := lookupKey_uninstallUpdate_mem _ snap p hmem
      exact plainMatch_of_lookup_none _ _ hlook
    · have hb : plainMatch snap p = false := by
        cases hval : plainMatch snap p
        · rfl
        · exact absurd hval hsat
      have hpres : lookupKey
          (uninstallUpdate snap
            ((parsePackages vj desired).filter (fun q => plainMatch snap q))) p.name
          = lookupKey snap p.name := by
        apply lookupKey_uninstallUpdate_notin
        intro q hq hname
        have hq2 := List.mem_filter.mp hq
        have hqp : q = p := hinj hq2.1 hp hname
        rw [hqp] at hq2
        rw [hq2.2] at hb
        cases hb
      rw [plainMatch_congr _ snap p hpres]
      exact hb
  · rw [reconcile_present_snapshot]
    apply reconcile_present_all_satisfied
    intro p hp
    by_cases hsat : plainMatch snap p = true
    · have hpres : lookupKey
          (installUpdate snap
            ((parsePackages vj desired).filter (fun q => !plainMatch snap q))) p.name
          = lookupKey snap p.name := by
        apply lookupKey_installUpdate_notin
        intro q hq hname
        have hq2 := List.mem_filter.mp hq
        have hqp : q = p := hinj hq2.1 hp hname
        rw [hqp, hsat] at hq2
        cases hq2.2
      rw [plainMatch_congr _ snap p hpres]
      exact hsat
    · have hb : plainMatch snap p = false := by
        cases hval : plainMatch snap p
        · rfl
        · exact absurd hval hsat
      have hmem : p ∈ (parsePackages vj desired).filter (fun q => !plainMatch snap q) :=
        List.mem_filter.mpr ⟨hp, by rw [hb]; rfl⟩
      have hnd2 : (((parsePackages vj desired).filter
          (fun q => !plainMatch snap q)).map Package.name).Nodup :=
        List.Nodup.sublist (List.Sublist.map Package.name (List.filter_sublist _)) hnd
      have hlook := lookupKey_installUpdate_mem _ snap p hmem hnd2
      exact plainMatch_of_lookup_token _ _ hlook

/-- C1: contrary to the claim that `ensure_packages` raises no runtime error
on any branch, the routine as committed raises `NameError` on every nonempty
desired list: with `present=True` it reads the never-assigned
`packages_to_check` (line 87), with `present=False` it calls the undefined
`_is_package_in_current` (line 109). -/
theorem ensure_packages_raises_name_error :
    ensure_packages (.listPkgs ["foo"]) [] true "apt-get install -y" "apt-get remove -y"
      = .error "NameError: name packages_to_check is not defined"
    ∧ ensure_packages (.listPkgs ["foo"]) [] false "apt-get install -y" "apt-get remove -y"
      = .error "NameError: name _is_package_in_current is not defined" :=
  ⟨rfl, rfl⟩

/-- C2 counterexample: as stated (for every configuration), a second run is
not command-free.  With `latest=true` and an upgrade command, a package that
is already installed is upgrade-eligible on every run, so the second run
re-emits the upgrade command. -/
theorem ensure_packages_idempotent_cex :
    (reconcile ["p"]
        (reconcile ["p"] [("p", ["1"])] true "apt-get install -y" "apt-get remove -y"
          true (some "apt-get upgrade -y") none none).snapshot
        true "apt-get install -y" "apt-get remove -y"
        true (some "apt-get upgrade -y") none none).commands
      = ["apt-get upgrade -y p"]
    ∧ (reconcile ["p"]
        (reconcile ["p"] [("p", ["1"])] true "apt-get install -y" "apt-get remove -y"
          true (some "apt-get upgrade -y") none none).snapshot
        true "apt-get install -y" "apt-get remove -y"
        true (some "apt-get upgrade -y") none none).commands ≠ [] := by
  constructor
  · decide
  · decide

/-- C2 witness: the amended idempotence theorem at a concrete input. -/
theorem ensure_packages_idempotent_witness :
    ((parsePackages (some "=") ["vim", "git=2.39"]).map Package.name).Nodup
    ∧ (reconcile ["vim", "git=2.39"]
        (reconcile ["vim", "git=2.39"] [("vim", ["9.0"])] true "apt-get install -y"
          "apt-get remove -y" false none (some "=") none).snapshot
        true "apt-get install -y" "apt-get remove -y" false none (some "=") none).commands
      = [] :=
  ⟨by decide,
    ensure_packages_idempotent ["vim", "git=2.39"] [("vim", ["9.0"])] true
      "apt-get install -y" "apt-get remove -y" none (some "=") (by decide)⟩

/-- C3: version round-trip of the consistent reconciler.  Ensuring
`"foo=1.2"` with `version_join="="` against a snapshot holding `foo ↦ {1.2}`
emits zero commands; against `foo ↦ {1.0}` it emits one install command whose
package token is `foo=1.2`. -/
theorem ensure_packages_version_round_trip (installCmd uninstallCmd : String) :
    (reconcile ["foo=1.2"] [("foo", ["1.2"])] true installCmd uninstallCmd
        false none (some "=") none).commands = []
    ∧ (reconcile ["foo=1.2"] [("foo", ["1.0"])] true installCmd uninstallCmd
        false none (some "=") none).commands = [installCmd ++ " foo=1.2"] := by
  refine ⟨rfl, ?_⟩
  show [installCmd ++ " " ++ "foo=1.2"] = [installCmd ++ " foo=1.2"]
  rw [String.append_assoc]
  have hlit : (" " ++ "foo=1.2" : String) = " foo=1.2" := rfl
  rw [hlit]

/-- C4: on a service whose status is unknown, `running=True` plus
`restarted=True` emits exactly one command, the combined if/then/else
conditional on the status probe, and records the service as running. -/
theorem handle_service_control_unknown_combined (statuses : StatusMap)
    (formatter : String → String → String) (name status_argument : String)
    (h : statusGet statuses name = none) :
    handle_service_control name statuses formatter (some true) (some true) none none
        status_argument
      = ⟨[combined_service_command (formatter name status_argument) "true"
            (formatter name "restart") "true" (formatter name "start")],
          [], setKey statuses name (some true)⟩
    ∧ statusGet
        (handle_service_control name statuses formatter (some true) (some true) none none
          status_argument).statuses name = some true := by
  have hres : handle_service_control name statuses formatter (some true) (some true)
      none none status_argument
      = ⟨[combined_service_command (formatter name status_argument) "true"
            (formatter name "restart") "true" (formatter name "start")],
          [], setKey statuses name (some true)⟩ := by
    simp [handle_service_control, h, optTruthy]
  refine ⟨hres, ?_⟩
  rw [hres]
  show (lookupKey (setKey statuses name (some true)) name).getD none = some true
  rw [lookupKey_setKey_self]
  rfl

/-- C4 witness: the unknown-status combination at a concrete input. -/
theorem handle_service_control_unknown_combined_witness :
    statusGet [("other", some true)] "x" = none
    ∧ (handle_service_control "x" [("other", some true)] exampleFormatter (some true)
          (some true) none none "status"
        = ⟨[combined_service_command (exampleFormatter "x" "status") "true"
              (exampleFormatter "x" "restart") "true" (exampleFormatter "x" "start")],
            [], setKey [("other", some true)] "x" (some true)⟩
      ∧ statusGet
          (handle_service_control "x" [("other", some true)] exampleFormatter (some true)
            (some true) none none "status").statuses "x" = some true) :=
  ⟨rfl, handle_service_control_unknown_combined [("other", some true)] exampleFormatter
    "x" "status" rfl⟩

/-- C5: on a service known to be stopped, restart/reload intents with no
other intents emit no command and no no-op observation. -/
theorem handle_service_control_stopped_skips (statuses : StatusMap)
    (formatter : String → String → String) (name status_argument : String)
    (restarted reloaded : Option Bool)
    (h : statusGet statuses name = some false)
    (hreq : restarted = some true ∨ reloaded = some true) :
    (handle_service_control name statuses formatter none restarted reloaded none
        status_argument).commands = []
    ∧ (handle_service_control name statuses formatter none restarted reloaded none
        status_argument).noops = [] := by
  constructor <;> simp [handle_service_control, h, optTruthy]

/-- C5 witness: restart requested on a stopped service at a concrete input. -/
theorem handle_service_control_stopped_skips_witness :
    statusGet [("x", some false)] "x" = some false
    ∧ ((handle_service_control "x" [("x", some false)] exampleFormatter none (some true)
          (some true) none "status").commands = []
      ∧ (handle_service_control "x" [("x", some false)] exampleFormatter none (some true)
          (some true) none "status").noops = []) :=
  ⟨rfl, handle_service_control_stopped_skips [("x", some false)] exampleFormatter
    "x" "status" (some true) (some true) rfl (Or.inl rfl)⟩

/-- C6: the spec and the comment inside the code say that a satisfied desired
package joins the upgrade-eligible set only when it carries no explicit
version, but the committed loop appends every satisfied package (line 94) and
in fact never reaches that point: it raises `NameError` on the unassigned
`packages_to_check` first, as this evaluation at the scenario of the claim
shows. -/
theorem ensure_packages_upgrade_branch_unreachable :
    ensure_packages (.listPkgs ["foo=1.2"]) [("foo", ["1.2"])] true
        "apt-get install -y" "apt-get remove -y" true (some "apt-get upgrade -y")
        (some "=") none
      = .error "NameError: name packages_to_check is not defined" :=
  rfl

/-- C7: the uninstall-expansion scenario of the claim (desired-absent package
expanding to `a` and `b` with only `a` installed) cannot execute in the
committed code: the `present is False` loop calls the undefined
`_is_package_in_current` and raises `NameError`, as this evaluation shows;
the surviving call site also passes `all_expanded_packages_required=True`
rather than the claimed any-mode, and the snapshot-removal loop indexes
`diff_packages_with_versions` (keyed by `_Package` records) with a plain
name string. -/
theorem ensure_packages_uninstall_expansion_unreachable :
    ensure_packages (.listPkgs ["providerpkg"]) [("a", ["1"])] false
        "apt-get install -y" "apt-get remove -y" false none none (some exampleExpandAB)
      = .error "NameError: name _is_package_in_current is not defined" :=
  rfl

/-- C8: with `present=True`, when the RPM metadata fact for the effective
(possibly just-downloaded) source is absent, `ensure_rpm` emits exactly the
guarded query-then-install command after any download commands, and the
guarded form is never the bare `rpm -i` command. -/
theorem ensure_rpm_guarded_when_metadata_absent (get_temp_filename : String → String)
    (download : String → String → List String) (get_fact : String → Option RpmInfo)
    (source package_manager_command : String)
    (h : get_fact (rpm_effective_source get_temp_filename source) = none) :
    ensure_rpm get_temp_filename download get_fact source true package_manager_command
      = (rpm_download_commands get_temp_filename download source
          ++ [rpm_guarded_install (rpm_effective_source get_temp_filename source)], [])
    ∧ ∀ path : String, rpm_guarded_install path ≠ "rpm -i " ++ path := by
  constructor
  · simp [ensure_rpm, h]
  · intro path hEq
    have hlen := congrArg String.length hEq
    simp only [rpm_guarded_install, String.length_append] at hlen
    have e1 : ("rpm -q `rpm -qp ").length = 16 := rfl
    have e2 : ("` 2> /dev/null || rpm -i ").length = 25 := rfl
    have e3 : ("rpm -i ").length = 7 := rfl
    rw [e1, e2, e3] at hlen
    omega

/-- C8 witness: a URL source downloaded mid-run with no metadata fact. -/
theorem ensure_rpm_guarded_when_metadata_absent_witness :
    exampleNoRpmFact (rpm_effective_source exampleTempName "http://example.com/pkg.rpm")
      = none
    ∧ (ensure_rpm exampleTempName exampleDownload exampleNoRpmFact
          "http://example.com/pkg.rpm" true "yum"
        = (rpm_download_commands exampleTempName exampleDownload "http://example.com/pkg.rpm"
            ++ [rpm_guarded_install
                  (rpm_effective_source exampleTempName "http://example.com/pkg.rpm")], [])
      ∧ ∀ path : String, rpm_guarded_install path ≠ "rpm -i " ++ path) :=
  ⟨rfl, ensure_rpm_guarded_when_metadata_absent exampleTempName exampleDownload
    exampleNoRpmFact "http://example.com/pkg.rpm" "yum" rfl⟩

/-- C9: for a non-URL repo name with `present=True` and a given description,
the synthesized repo file text is exactly the newline-joined lines
`[name]`, `name=`, `baseurl=`, `enabled=0|1`, `gpgcheck=0|1`, then `type=`
only if given, then `gpgkey=` only if given, followed by a trailing blank
line, handed to the put-file collaborator at `<directory><name>.repo`. -/
theorem ensure_yum_repo_file_text (file_absent : String → List String)
    (download : String → String → List String) (file_exists : String → Bool)
    (put : String → String → List String)
    (name_or_url baseurl description gpgkey repo_directory type_ : String)
    (enabled gpgcheck : Bool)
    (hscheme : urlHasScheme name_or_url = false) (hdesc : description ≠ "") :
    ensure_yum_repo file_absent download file_exists put name_or_url baseurl true
        description enabled gpgcheck gpgkey repo_directory type_
      = put (String.intercalate "\n"
          (["[" ++ name_or_url ++ "]",
            "name=" ++ description,
            "baseurl=" ++ baseurl,
            "enabled=" ++ (if enabled then "1" else "0"),
            "gpgcheck=" ++ (if gpgcheck then "1" else "0")]
            ++ (if type_ ≠ "" then ["type=" ++ type_] else [])
            ++ (if gpgkey ≠ "" then ["gpgkey=" ++ gpgkey] else [])
            ++ [""]))
          (repo_directory ++ name_or_url ++ ".repo") := by
  simp [ensure_yum_repo, hscheme, hdesc]

/-- C9 witness: the synthesized text at a concrete input with a `gpgkey` and
no `type`. -/
theorem ensure_yum_repo_file_text_witness :
    urlHasScheme "myrepo" = false
    ∧ ("EPEL description" ≠ ""
    ∧ ensure_yum_repo exampleFileAbsent exampleDownload exampleFileMissing examplePut
        "myrepo" "http://mirror/os" true "EPEL description" true false
        "http://mirror/key" "/etc/yum.repos.d/" ""
      = examplePut (String.intercalate "\n"
          (["[" ++ "myrepo" ++ "]",
            "name=" ++ "EPEL description",
            "baseurl=" ++ "http://mirror/os",
            "enabled=" ++ (if true then "1" else "0"),
            "gpgcheck=" ++ (if false then "1" else "0")]
            ++ (if ("" : String) ≠ "" then ["type=" ++ ""] else [])
            ++ (if ("http://mirror/key" : String) ≠ "" then
                  ["gpgkey=" ++ "http://mirror/key"] else [])
            ++ [""]))
          ("/etc/yum.repos.d/" ++ "myrepo" ++ ".repo")) :=
  ⟨rfl, by decide,
    ensure_yum_repo_file_text exampleFileAbsent exampleDownload exampleFileMissing
      examplePut "myrepo" "http://mirror/os" "EPEL description" "http://mirror/key"
      "/etc/yum.repos.d/" "" true false rfl (by decide)⟩

/-- C10: a falsy `packages_to_ensure` argument (`None`, the empty string, or
the empty list) makes `ensure_packages` return immediately: no commands, no
no-op observations, and an unchanged snapshot. -/
theorem ensure_packages_falsy_frame (arg : PackagesArg) (snap : Snapshot)
    (present : Bool) (installCmd uninstallCmd : String) (latest : Bool)
    (upgradeCmd vj : Option String) (expand : Option (String → List String))
    (h : arg.isFalsy = true) :
    ensure_packages arg snap present installCmd uninstallCmd latest upgradeCmd vj expand
      = .ok ⟨[], [], snap⟩ := by
  unfold ensure_packages
  rw [h]
  rfl

/-- C10 witness: the three falsy shapes at concrete inputs. -/
theorem ensure_packages_falsy_frame_witness :
    (PackagesArg.nonePkgs.isFalsy = true
      ∧ ensure_packages .nonePkgs [("a", ["1"])] true "i" "u" = .ok ⟨[], [], [("a", ["1"])]⟩)
    ∧ ((PackagesArg.strPkgs "").isFalsy = true
      ∧ ensure_packages (.strPkgs "") [("a", ["1"])] false "i" "u"
          = .ok ⟨[], [], [("a", ["1"])]⟩)
    ∧ ((PackagesArg.listPkgs []).isFalsy = true
      ∧ ensure_packages (.listPkgs []) [] true "i" "u" = .ok ⟨[], [], []⟩) :=
  ⟨⟨rfl, ensure_packages_falsy_frame .nonePkgs [("a", ["1"])] true "i" "u" false none
      none none rfl⟩,
    ⟨rfl, ensure_packages_falsy_frame (.strPkgs "") [("a", ["1"])] false "i" "u" false none
      none none rfl⟩,
    ⟨rfl, ensure_packages_falsy_frame (.listPkgs []) [] true "i" "u" false none
      none none rfl⟩⟩

end Pyinfra
